import Mathlib

/-!
# Verification of the Probabilistic Session Orchestrator

Shallow embedding of the session model, the weighted decision engine and the
video phase controller of the `automation-youtube` repository, together with
theorems settling the specification claims about them.

Conventions of the embedding:
* JavaScript `number` values that stay finite and exact are modelled by `ℚ`;
  the places where IEEE special values (`NaN`, `±Infinity`) can arise — the
  weight-normalisation divide — are modelled by the `JSNum` type which carries
  them explicitly, with the IEEE comparison/arithmetic rules on them.
* `Math.random() * 100` draws are passed in as explicit arguments (the rolled
  value), so every function is a deterministic function of its inputs.
* Wall-clock time: `Date` values are modelled as rational numbers of minutes
  (the unit the session limits are configured in); `new Date()` reads are
  passed in as an explicit `now` argument.
* Mutation of the `Session` object is modelled by state passing: a method that
  mutates returns the updated `Session`.
-/

namespace Youtube

/-- Result of `Session.checkLimits` (src/models/session.ts:208):
`{ exceedsLimit: boolean; reason?: string }`. -/
structure CheckResult where
  exceedsLimit : Bool
  reason : Option String
deriving Repr, DecidableEq

/-- One entry of `summarize.random` (src/models/session.ts:9, `IRandom`). -/
structure RandomRec where
  configValue : ℚ
  configName : String
  actualValue : ℚ
  result : Bool
deriving Repr, DecidableEq

/-- One entry of `summarize.error` (src/models/session.ts:16, `IError`). -/
structure ErrorRec where
  message : String
  stack : String
  source : String
deriving Repr, DecidableEq

/-- One entry of `summarize.stateTransition` (src/models/session.ts:28). -/
structure StateRec where
  stateFrom : String
  stateTo : String
deriving Repr, DecidableEq

/-- The `Session` aggregate (src/models/session.ts:32).  Timestamps are
rational minutes; the three limit fields are the readonly configuration
`sessionDuration`, `maxVideos`, `idleTimeout`. -/
structure Session where
  startTime : ℚ
  lastActivityTime : ℚ
  videosWatched : ℕ
  searchesPerformed : ℕ
  likes : ℕ
  comments : ℕ
  subscribes : ℕ
  sessionDuration : ℚ
  maxVideos : ℕ
  idleTimeout : ℚ
  random : List RandomRec
  errors : List ErrorRec
  stateTransitions : List StateRec
deriving Repr, DecidableEq

namespace Session

/-- `updateActivity` (src/models/session.ts:82): `lastActivityTime = new Date()`. -/
def updateActivity (s : Session) (now : ℚ) : Session :=
  { s with lastActivityTime := now }

/-- `incrementVideosWatched` (src/models/session.ts:92): `this.videosWatched++`. -/
def incrementVideosWatched (s : Session) : Session :=
  { s with videosWatched := s.videosWatched + 1 }

/-- `incrementSearches` (src/models/session.ts:100). -/
def incrementSearches (s : Session) : Session :=
  { s with searchesPerformed := s.searchesPerformed + 1 }

/-- `recordRandom` (src/models/session.ts:116): pushes an `IRandom` entry whose
`result` field is `actualValue <= configValue`. -/
def recordRandom (s : Session) (configValue : ℚ) (configName : String)
    (actualValue : ℚ) : Session :=
  { s with random :=
      s.random ++ [⟨configValue, configName, actualValue,
        decide (actualValue ≤ configValue)⟩] }

/-- `getSessionDuration` (src/models/session.ts:169): elapsed minutes since
`startTime` as of `now`. -/
def getSessionDuration (s : Session) (now : ℚ) : ℚ :=
  now - s.startTime

/-- `getIdleTime` (src/models/session.ts:176): minutes since
`lastActivityTime` as of `now`. -/
def getIdleTime (s : Session) (now : ℚ) : ℚ :=
  now - s.lastActivityTime

/-- `checkLimits` (src/models/session.ts:208): duration check first, then
video count, then idle time, each compared with `>=`; the first exceeded
condition returns, so only one reason is ever produced. -/
def checkLimits (s : Session) (now : ℚ) : CheckResult :=
  let sessionDuration := s.getSessionDuration now
  let idleTime := s.getIdleTime now
  if sessionDuration ≥ s.sessionDuration then
    ⟨true, some "duration"⟩
  else if s.videosWatched ≥ s.maxVideos then
    ⟨true, some "videoCount"⟩
  else if idleTime ≥ s.idleTimeout then
    ⟨true, some "idle"⟩
  else
    ⟨false, none⟩

/-- `checkLimits` in state-passing form: a JS method receives the object and
may mutate it; `checkLimits`'s body only reads fields, so the state it hands
back is the state it received.  The pair is (returned verdict, session after
the call). -/
def checkLimitsM (s : Session) (now : ℚ) : CheckResult × Session :=
  (s.checkLimits now, s)

end Session

/-- `probabilityCheck` of src/utils/enhanced-random.ts:12: the drawn value is
`Math.random() * 100` (passed here as `randomValue`) and the result is
`randomValue <= percentage`. -/
def EnhancedRandom.probabilityCheck (percentage : ℚ) (randomValue : ℚ) : Bool :=
  randomValue ≤ percentage

/-- `probabilityCheck` of src/utils/random.ts (the plain variant shipped next
to src/utils/logger.ts:28): `Math.random() * 100 <= percentage`. -/
def RandomUtil.probabilityCheck (percentage : ℚ) (randomValue : ℚ) : Bool :=
  randomValue ≤ percentage

/-! ## JavaScript numbers for the weight normalisation

The weighted-choice normalisation divides each weight by the total weight.
When the total is `0`, JavaScript produces `NaN` (for `0 / 0`) or `±Infinity`,
and every `<=` comparison against `NaN` is false.  `JSNum` models exactly the
values reachable by that arithmetic: exact rationals plus the three special
values, with the IEEE rules for the operations the code performs. -/

inductive JSNum where
  | nan : JSNum
  | inf : JSNum
  | ninf : JSNum
  | num : ℚ → JSNum
deriving Repr, DecidableEq

namespace JSNum

/-- IEEE addition on `JSNum` (exact in the rational case). -/
def add : JSNum → JSNum → JSNum
  | nan, _ => nan
  | _, nan => nan
  | inf, ninf => nan
  | ninf, inf => nan
  | inf, _ => inf
  | _, inf => inf
  | ninf, _ => ninf
  | _, ninf => ninf
  | num a, num b => num (a + b)

/-- IEEE multiplication on `JSNum` (exact in the rational case). -/
def mul : JSNum → JSNum → JSNum
  | nan, _ => nan
  | _, nan => nan
  | inf, inf => inf
  | inf, ninf => ninf
  | ninf, inf => ninf
  | ninf, ninf => inf
  | inf, num b => if b = 0 then nan else if 0 < b then inf else ninf
  | num a, inf => if a = 0 then nan else if 0 < a then inf else ninf
  | ninf, num b => if b = 0 then nan else if 0 < b then ninf else inf
  | num a, ninf => if a = 0 then nan else if 0 < a then ninf else inf
  | num a, num b => num (a * b)

/-- IEEE division on `JSNum`: `0 / 0 = NaN`, `x / 0 = ±Infinity` for `x ≠ 0`
(exact in the rational case). -/
def div : JSNum → JSNum → JSNum
  | nan, _ => nan
  | _, nan => nan
  | inf, inf => nan
  | inf, ninf => nan
  | ninf, inf => nan
  | ninf, ninf => nan
  | inf, num b => if 0 ≤ b then inf else ninf
  | ninf, num b => if 0 ≤ b then ninf else inf
  | num _, inf => num 0
  | num _, ninf => num 0
  | num a, num b =>
    if b = 0 then
      if a = 0 then nan else if 0 < a then inf else ninf
    else num (a / b)

/-- IEEE `<=` on `JSNum`: any comparison involving `NaN` is false. -/
def le : JSNum → JSNum → Bool
  | nan, _ => false
  | _, nan => false
  | ninf, _ => true
  | _, ninf => false
  | _, inf => true
  | inf, _ => false
  | num a, num b => a ≤ b

end JSNum

/-! ## Weighted exclusive choice

Both weighted-choice sites of the video controller
(src/controllers/video.ts:326 and src/controllers/video.ts:850) run the same
algorithm on their option list:

```js
const total = options.reduce((sum, o) => sum + o.probability, 0);
options.forEach(o => (o.probability = (o.probability / total) * 100));
let randomValue = Math.random() * 100;
let cumulative = 0;
let selected = <initial>;          // "watchSuggested" resp. "continueWatching"
for (const o of options) {
  cumulative += o.probability;
  if (randomValue <= cumulative) { selected = o.name; break; }
}
```

`selectWeighted` is that loop, with the option list, the initial value of
`selected` and the rolled value as parameters. -/

/-- `options.reduce((sum, o) => sum + o.probability, 0)`. -/
def totalWeight (options : List (String × ℚ)) : ℚ :=
  options.foldl (fun sum o => sum + o.2) 0

/-- The `forEach` normalisation: each weight becomes
`(weight / total) * 100`, in JavaScript arithmetic. -/
def normalizeWeights (options : List (String × ℚ)) : List (String × JSNum) :=
  let total := totalWeight options
  options.map fun o => (o.1, (JSNum.num o.2 |>.div (JSNum.num total)).mul (JSNum.num 100))

/-- The cumulative walk: `cumulative += p; if (randomValue <= cumulative) break`. -/
def walkCumulative (randomValue : ℚ) (cumulative : JSNum) :
    List (String × JSNum) → String → String
  | [], selected => selected
  | (name, p) :: rest, selected =>
    let c := cumulative.add p
    if (JSNum.num randomValue).le c then name
    else walkCumulative randomValue c rest selected

/-- The whole weighted exclusive choice: normalise, then walk with the rolled
value; `initial` is the value the source pre-assigns to the selection
variable before the loop. -/
def selectWeighted (options : List (String × ℚ)) (initial : String)
    (randomValue : ℚ) : String :=
  walkCumulative randomValue (JSNum.num 0) (normalizeWeights options) initial

/-- Sum of the normalised weights, in JavaScript arithmetic (used to state
the normalisation property of §8 of the spec). -/
def sumNormalized (options : List (String × ℚ)) : JSNum :=
  (normalizeWeights options).foldl (fun sum o => sum.add o.2) (JSNum.num 0)

/-- The probability/behaviour fields of `IWatchVideoConfig` consumed by
`VideoController.watchVideo` and `viewVideoContent`
(src/controllers/video.ts). -/
structure WatchVideoConfig where
  adjustVolume : ℚ
  skipAd : ℚ
  skipAdDelay : ℚ
  minWatchPercentage : ℚ
  watchToEnd : ℚ
  interestingSection : ℚ
  boringSection : ℚ
  tabInactive : ℚ
  continueWatching : ℚ
  pauseDuration : ℚ
  rewindTime : ℚ
  skipTime : ℚ
deriving Repr, DecidableEq

/-- The config consumed by `decideNextAction` (src/controllers/video.ts:810). -/
structure NavigationConfig where
  watchSuggested : ℚ
  backToSearchResults : ℚ
  newSearch : ℚ
  viewCurrentChannel : ℚ
  endSessionEarly : ℚ
deriving Repr, DecidableEq

/-- The in-video behaviour choice of `viewVideoContent`
(src/controllers/video.ts:316-346): the `behaviors` array in source order,
with `selectedBehavior` pre-assigned `"continueWatching"`. -/
def viewVideoBehaviorChoice (cfg : WatchVideoConfig) (randomValue : ℚ) : String :=
  selectWeighted
    [("interestingSection", cfg.interestingSection),
     ("boringSection", cfg.boringSection),
     ("tabInactive", cfg.tabInactive),
     ("continueWatching", cfg.continueWatching)]
    "continueWatching" randomValue

/-- The next-action choice of `decideNextAction`
(src/controllers/video.ts:839-870): the `actions` array in source order, with
`selectedAction` pre-assigned `"watchSuggested"`. -/
def decideNextActionChoice (cfg : NavigationConfig) (randomValue : ℚ) : String :=
  selectWeighted
    [("watchSuggested", cfg.watchSuggested),
     ("backToSearchResults", cfg.backToSearchResults),
     ("newSearch", cfg.newSearch),
     ("viewCurrentChannel", cfg.viewCurrentChannel),
     ("endSessionEarly", cfg.endSessionEarly)]
    "watchSuggested" randomValue

/-! ## Orchestrator dispatch (src/index.ts:162, `handleNextAction`) -/

/-- A phase the orchestrator can hand control to next.  `terminate` stands for
the function returning without dispatching another phase (the session flow
ends). -/
inductive Route where
  | home : Route
  | search : Route
  | video : Route
  | channel : Route
  | terminate : Route
deriving Repr, DecidableEq

/-- The `case "finishSearch"` body of `handleNextAction`
(src/index.ts:211-219): `probabilityCheck(70)` decides home vs a new search. -/
def finishSearchTargets (rollFinish : ℚ) : List Route :=
  if RandomUtil.probabilityCheck 70 rollFinish then [Route.home] else [Route.search]

/-- `handleNextAction` (src/index.ts:162-244), as the sequence of phases it
dispatches: after `updateActivity` the limiter verdict is consulted (exceeded
ends the flow), then the switch on `action` runs.  `rollEndHome` is the
`Math.random() * 100` draw of the `"endHomeBrowsing"` case and `rollFinish`
the draw of `probabilityCheck(70)` in `"finishSearch"`.  The
`"endHomeBrowsing"` case has no `break`, so its first two branches fall
through into the `"finishSearch"` body. -/
def handleNextActionRoutes (action : String) (limitExceeded : Bool)
    (rollEndHome rollFinish : ℚ) : List Route :=
  if limitExceeded then [Route.terminate]
  else if action = "watchVideo" then [Route.video]
  else if action = "search" then [Route.search]
  else if action = "goToHome" then [Route.home]
  else if action = "endHomeBrowsing" then
    if rollEndHome < 40 then Route.search :: finishSearchTargets rollFinish
    else if rollEndHome < 80 then Route.home :: finishSearchTargets rollFinish
    else [Route.terminate]
  else if action = "finishSearch" then finishSearchTargets rollFinish
  else if action = "viewChannel" then [Route.channel]
  else if action = "endSession" then [Route.terminate]
  else if action = "error" then [Route.home]
  else [Route.home]

/-! ## The video-watching loop (src/controllers/video.ts:254-422,
`viewVideoContent`)

The `while (watchedTime < watchDuration)` loop checks the session limits,
updates activity, watches one continuous segment (a `randomDelay` whose length
is `min(randomInt(10, 30), watchDuration - watchedTime)` seconds), and then —
if more remains — runs the weighted behaviour choice, whose handlers touch the
page (and may therefore throw), skip forward, or go tab-inactive with an inner
limit check.

The randomness and the wall-clock cost of each iteration are supplied by a
`LoopOracle`; the loop recurses on the list of oracles (the list running out
is a modelling artefact reported as `outOfFuel`, never reached by any claim).
The loop emits a trace of `LEvent`s: every `checkLimits` consultation, every
watching segment started and every page-touching behaviour effect. -/

/-- Per-iteration random draws and costs of the watching loop. -/
structure LoopOracle where
  /-- `randomInt(10, 30)`, the desired continuous segment length (seconds). -/
  segRand : ℕ
  /-- wall-clock minutes spent in the segment's `randomDelay`. -/
  segDelay : ℚ
  /-- `Math.random() * 100` for the behaviour choice. -/
  behaviorRoll : ℚ
  /-- the chosen behaviour's page interaction throws. -/
  branchThrows : Bool
  /-- wall-clock minutes spent inside the chosen behaviour handler. -/
  branchDelay : ℚ
deriving Repr, DecidableEq

/-- Observable events of the watching loop. -/
inductive LEvent where
  /-- a `session.checkLimits()` call returning the given `reason`. -/
  | check : Option String → LEvent
  /-- a continuous watching segment of the given length was started. -/
  | segment : ℚ → LEvent
  /-- a page-touching behaviour effect was started. -/
  | effect : LEvent
deriving Repr, DecidableEq

/-- Mutable state threaded through the loop: the clock, the session and
`watchedTime`. -/
structure LoopSt where
  now : ℚ
  sess : Session
  watchedTime : ℚ
deriving Repr, DecidableEq

/-- How the loop ends. -/
inductive LoopRes where
  /-- `{action: "endSession", data: {reason, ...}}`. -/
  | endSession : Option String → LoopRes
  /-- `{action: "videoCompleted", ...}`. -/
  | videoCompleted : LoopRes
  /-- `{action: "videoPartiallyWatched", ...}`. -/
  | videoPartiallyWatched : LoopRes
  /-- a page interaction threw; the exception leaves `viewVideoContent` and is
  caught by `watchVideo`'s catch block. -/
  | thrown : LoopRes
  /-- oracle list exhausted (modelling artefact). -/
  | outOfFuel : LoopRes
deriving Repr, DecidableEq

/-- The `while` loop of `viewVideoContent`.  `videoDur` is
`videoInfo.duration`, `watchDur` the computed `watchDuration`. -/
def viewLoop (cfg : WatchVideoConfig) (videoDur watchDur : ℚ) :
    List LoopOracle → LoopSt → List LEvent × LoopSt × LoopRes
  | os, st =>
    if st.watchedTime < watchDur then
      match os with
      | [] => ([], st, LoopRes.outOfFuel)
      | o :: rest =>
        let v := st.sess.checkLimits st.now
        if v.exceedsLimit then
          ([LEvent.check v.reason], st, LoopRes.endSession v.reason)
        else
          let s1 := st.sess.updateActivity st.now
          let seg := min (o.segRand : ℚ) (watchDur - st.watchedTime)
          let now1 := st.now + o.segDelay
          let wt1 := st.watchedTime + seg
          let pre : List LEvent := [LEvent.check none, LEvent.segment seg]
          if wt1 < watchDur then
            let beh := viewVideoBehaviorChoice cfg o.behaviorRoll
            if beh = "interestingSection" then
              if o.branchThrows then
                (pre ++ [LEvent.effect], ⟨now1, s1, wt1⟩, LoopRes.thrown)
              else
                let r := viewLoop cfg videoDur watchDur rest ⟨now1 + o.branchDelay, s1, wt1⟩
                (pre ++ [LEvent.effect] ++ r.1, r.2)
            else if beh = "boringSection" then
              if o.branchThrows then
                (pre ++ [LEvent.effect], ⟨now1, s1, wt1⟩, LoopRes.thrown)
              else
                let wt2 := min watchDur (wt1 + cfg.skipTime)
                let r := viewLoop cfg videoDur watchDur rest ⟨now1 + o.branchDelay, s1, wt2⟩
                (pre ++ [LEvent.effect] ++ r.1, r.2)
            else if beh = "tabInactive" then
              let now2 := now1 + o.branchDelay
              let iv := s1.checkLimits now2
              if iv.exceedsLimit ∧ iv.reason = some "idle" then
                (pre ++ [LEvent.check iv.reason], ⟨now2, s1, wt1⟩,
                  LoopRes.endSession (some "idle"))
              else
                let s2 := s1.updateActivity now2
                let r := viewLoop cfg videoDur watchDur rest ⟨now2, s2, wt1⟩
                (pre ++ [LEvent.check iv.reason] ++ r.1, r.2)
            else
              let r := viewLoop cfg videoDur watchDur rest ⟨now1, s1, wt1⟩
              (pre ++ r.1, r.2)
          else
            let r := viewLoop cfg videoDur watchDur rest ⟨now1, s1, wt1⟩
            (pre ++ r.1, r.2)
    else
      ([], st,
        if (JSNum.num cfg.minWatchPercentage).le
            ((JSNum.num st.watchedTime |>.div (JSNum.num videoDur)).mul
              (JSNum.num 100)) then
          LoopRes.videoCompleted
        else LoopRes.videoPartiallyWatched)

/-- `viewVideoContent` (src/controllers/video.ts:254): picks the watch
percentage (`randomInt(minWatchPercentage, watchToEnd)`, supplied as
`watchPctRand`), computes
`watchDuration = Math.floor(videoInfo.duration * pct / 100)` and runs the
watching loop starting from `watchedTime = 0`. -/
def viewVideoContent (cfg : WatchVideoConfig) (s : Session) (now : ℚ)
    (videoDur : ℚ) (watchPctRand : ℕ) (os : List LoopOracle) :
    List LEvent × LoopSt × LoopRes :=
  let watchDuration : ℚ := ((videoDur * (watchPctRand : ℚ)) / 100).floor
  viewLoop cfg videoDur watchDuration os ⟨now, s, 0⟩

/-! ## `VideoController.watchVideo` (src/controllers/video.ts:26-69)

The whole method body sits in a `try`; any exception thrown by the page
(the Action Provider) is caught at line 64 and converted to
`{action: "error", data: {error}}`.  The body: get the current page, update
activity, increment `videosWatched`, read the video info (whose own failures
are caught internally and replaced by defaults, so it never throws outward),
handle ads, possibly adjust the volume, then run `viewVideoContent`. -/

/-- Random draws, wall-clock costs and failure injections for one
`watchVideo` call.  A `*Throws` flag set means the corresponding page
interaction throws. -/
structure WatchOracle where
  pageThrows : Bool
  adsThrows : Bool
  adsDelay : ℚ
  adjustRoll : ℚ
  volThrows : Bool
  volDelay : ℚ
  watchPctRand : ℕ
  loopOracles : List LoopOracle
deriving Repr, DecidableEq

/-- Observable events of a `watchVideo` call. -/
inductive WEvent where
  /-- `session.updateActivity()`. -/
  | activity : WEvent
  /-- `session.incrementVideosWatched()`. -/
  | increment : WEvent
  /-- ad handling touched the page. -/
  | adsStep : WEvent
  /-- volume adjustment touched the page. -/
  | volStep : WEvent
  /-- an event of the watching loop. -/
  | loopEv : LEvent → WEvent
deriving Repr, DecidableEq

/-- The `action` tag of the `ActionResult` returned by `watchVideo`. -/
inductive WatchResult where
  | error : WatchResult
  | endSession : Option String → WatchResult
  | videoCompleted : WatchResult
  | videoPartiallyWatched : WatchResult
  | outOfFuel : WatchResult
deriving Repr, DecidableEq

/-- Result of a `watchVideo` call: the returned `ActionResult` tag, the
session object after the call, and the event trace. -/
structure WatchOut where
  result : WatchResult
  sess : Session
  trace : List WEvent
deriving Repr, DecidableEq

/-- Conversion of the watching loop's outcome into `watchVideo`'s returned
`ActionResult` tag: `viewVideoContent`'s result is returned as-is
(src/controllers/video.ts:62-63), and a thrown page error becomes
`{action: "error"}` via the catch block (src/controllers/video.ts:64-68). -/
def wrapLoopRes (res : LoopRes) (s : Session) (base : List WEvent) : WatchOut :=
  match res with
  | LoopRes.thrown => ⟨WatchResult.error, s, base⟩
  | LoopRes.endSession reason => ⟨WatchResult.endSession reason, s, base⟩
  | LoopRes.videoCompleted => ⟨WatchResult.videoCompleted, s, base⟩
  | LoopRes.videoPartiallyWatched => ⟨WatchResult.videoPartiallyWatched, s, base⟩
  | LoopRes.outOfFuel => ⟨WatchResult.outOfFuel, s, base⟩

/-- `VideoController.watchVideo` (src/controllers/video.ts:26).  `videoDur` is
the duration reported by `getVideoInfo`. -/
def watchVideo (s : Session) (now : ℚ) (cfg : WatchVideoConfig) (videoDur : ℚ)
    (o : WatchOracle) : WatchOut :=
  if o.pageThrows then ⟨WatchResult.error, s, []⟩
  else
    let s1 := s.updateActivity now
    let s2 := s1.incrementVideosWatched
    if o.adsThrows then
      ⟨WatchResult.error, s2, [WEvent.activity, WEvent.increment, WEvent.adsStep]⟩
    else
      let now1 := now + o.adsDelay
      let gate := RandomUtil.probabilityCheck cfg.adjustVolume o.adjustRoll
      if gate ∧ o.volThrows then
        ⟨WatchResult.error, s2,
          [WEvent.activity, WEvent.increment, WEvent.adsStep, WEvent.volStep]⟩
      else
        let now2 := if gate then now1 + o.volDelay else now1
        let volEvs := if gate then [WEvent.volStep] else []
        let r := viewVideoContent cfg s2 now2 videoDur o.watchPctRand o.loopOracles
        let base := [WEvent.activity, WEvent.increment, WEvent.adsStep] ++ volEvs
          ++ r.1.map WEvent.loopEv
        wrapLoopRes r.2.2 r.2.1.sess base

/-! ## Trace predicates -/

/-- An `LEvent` that starts an externally observable effect: a watching
segment or a page-touching behaviour effect (limit checks read only). -/
def LEvent.isStart : LEvent → Bool
  | LEvent.segment _ => true
  | LEvent.effect => true
  | LEvent.check _ => false

/-- The guard discipline of the watching loop: a watching segment may only be
started while "armed" by a `checkLimits` call that returned ok (reason
`none`) and after which no other segment has yet been started. -/
def wellGuarded : Bool → List LEvent → Bool
  | _, [] => true
  | _, LEvent.check r :: t => wellGuarded r.isNone t
  | armed, LEvent.segment _ :: t => armed && wellGuarded false t
  | armed, LEvent.effect :: t => wellGuarded armed t

/-- After any `checkLimits` call that reported a limit exceeded (a `some`
reason), no further segment and no further effect is started. -/
def noStartAfterExceeded : List LEvent → Bool
  | [] => true
  | LEvent.check r :: t =>
    if r.isSome then t.all fun e => !e.isStart else noStartAfterExceeded t
  | _ :: t => noStartAfterExceeded t

/-- Number of `incrementVideosWatched` calls in a `watchVideo` trace. -/
def countIncrements (evs : List WEvent) : ℕ :=
  evs.countP fun e => decide (e = WEvent.increment)

/-- The increment of `videosWatched` happens before any ad handling, volume
adjustment or watching-loop event: scanning the trace, nothing but activity
updates may precede the first increment. -/
def incrementFirst : List WEvent → Bool
  | [] => true
  | WEvent.increment :: _ => true
  | WEvent.activity :: t => incrementFirst t
  | WEvent.adsStep :: _ => false
  | WEvent.volStep :: _ => false
  | WEvent.loopEv _ :: _ => false

/-! ## Concrete fixtures used by witnesses and counterexamples -/

/-- A session fresh at time `0` with limits
`{sessionDuration: 10, maxVideos: 5, idleTimeout: 10}`. -/
def exampleSession : Session :=
  ⟨0, 0, 0, 0, 0, 0, 0, 10, 5, 10, [], [], []⟩

/-- The simultaneous-violation session of §8 of the spec: at `now = 100` the
elapsed duration is `100` against limit `90`, `videosWatched = 20` against
limit `15`, and the idle time is `30` against limit `10`. -/
def tripleViolationSession : Session :=
  ⟨0, 70, 20, 0, 0, 0, 0, 90, 15, 10, [], [], []⟩

/-- A session whose very first limit check already reports `duration`
(`sessionDuration` limit `0`). -/
def expiredSession : Session :=
  ⟨0, 0, 0, 0, 0, 0, 0, 0, 5, 10, [], [], []⟩

/-- An all-zero behaviour table for `viewVideoContent`. -/
def zeroWatchConfig : WatchVideoConfig :=
  ⟨0, 0, 0, 0, 0, 0, 0, 0, 0, 0, 0, 0⟩

/-- An all-zero next-action table for `decideNextAction`. -/
def zeroNavigationConfig : NavigationConfig :=
  ⟨0, 0, 0, 0, 0⟩

/-- A sample watch-video config with nonzero weights. -/
def sampleWatchConfig : WatchVideoConfig :=
  ⟨50, 80, 5, 30, 90, 10, 10, 10, 70, 5, 10, 30⟩

/-- A sample oracle for one `watchVideo` call in which the page never throws. -/
def quietOracle : WatchOracle :=
  ⟨false, false, 0, 99, false, 0, 50, [⟨20, 1, 99, false, 0⟩]⟩

/-! ## Helper lemmas on `checkLimits` -/

/-- `checkLimits` produces one of exactly four results, determined by the
three comparisons in source order. -/
theorem checkLimits_eq (s : Session) (now : ℚ) :
    s.checkLimits now =
      (if s.getSessionDuration now ≥ s.sessionDuration then ⟨true, some "duration"⟩
       else if s.videosWatched ≥ s.maxVideos then ⟨true, some "videoCount"⟩
       else if s.getIdleTime now ≥ s.idleTimeout then ⟨true, some "idle"⟩
       else ⟨false, none⟩ : CheckResult) := rfl

/-- A reported reason implies the exceeded flag. -/
theorem checkLimits_reason_isSome {s : Session} {now : ℚ}
    (h : ((s.checkLimits now).reason).isSome) :
    (s.checkLimits now).exceedsLimit = true := by
  rw [checkLimits_eq] at h ⊢
  split_ifs at h ⊢ <;> simp_all

/-- First branch: the duration condition alone forces the `"duration"` verdict. -/
theorem checkLimits_duration {s : Session} {now : ℚ}
    (h : s.getSessionDuration now ≥ s.sessionDuration) :
    s.checkLimits now = ⟨true, some "duration"⟩ := by
  rw [checkLimits_eq]
  simp [h]

/-- Second branch: duration within bounds and the video condition forces the
`"videoCount"` verdict. -/
theorem checkLimits_videoCount {s : Session} {now : ℚ}
    (h1 : ¬ s.getSessionDuration now ≥ s.sessionDuration)
    (h2 : s.videosWatched ≥ s.maxVideos) :
    s.checkLimits now = ⟨true, some "videoCount"⟩ := by
  rw [checkLimits_eq]
  simp [h1, h2]

/-- Third branch: duration and video count within bounds and the idle
condition forces the `"idle"` verdict. -/
theorem checkLimits_idle {s : Session} {now : ℚ}
    (h1 : ¬ s.getSessionDuration now ≥ s.sessionDuration)
    (h2 : ¬ s.videosWatched ≥ s.maxVideos)
    (h3 : s.getIdleTime now ≥ s.idleTimeout) :
    s.checkLimits now = ⟨true, some "idle"⟩ := by
  rw [checkLimits_eq]
  simp [h1, h2, h3]

/-- `updateActivity` resets only the idle clock: a verdict that was exceeded
for a reason other than `"idle"` stays exceeded after `updateActivity` at the
same instant. -/
theorem checkLimits_exceed_after_updateActivity {s : Session} {now : ℚ}
    (h1 : (s.checkLimits now).exceedsLimit = true)
    (h2 : (s.checkLimits now).reason ≠ some "idle") :
    ((s.updateActivity now).checkLimits now).exceedsLimit = true := by
  rw [checkLimits_eq] at h1 h2 ⊢
  simp only [Session.updateActivity, Session.getSessionDuration,
    Session.getIdleTime] at h1 h2 ⊢
  split_ifs at h1 h2 ⊢ <;> simp_all

/-! ## Claim C1 — the independent probability check -/

/-- C1, counterexample: the claim says the check returns true exactly when
`r < p` (strictly).  At `p = 50` with drawn value `r = 50` (a value in
`[0, 100)`) the code's `randomValue <= percentage` comparison returns `true`
although `r < p` is false, so the claim as stated is false. -/
theorem c1_strict_less_counterexample :
    EnhancedRandom.probabilityCheck 50 50 = true ∧ ¬ ((50 : ℚ) < 50) := by
  constructor
  · decide
  · exact lt_irrefl 50

/-- C1, amended: for every percentage `p` in `[0, 100]` and drawn value `r` in
`[0, 100)`, every implementation of the check — the enhanced one, the plain
one, and the `result` field computed by `Session.recordRandom` — returns true
exactly when `r ≤ p` (less-or-equal, not strictly less). -/
theorem c1_probability_check_le (p r : ℚ) (s : Session) (name : String)
    (_hp0 : 0 ≤ p) (_hp1 : p ≤ 100) (_hr0 : 0 ≤ r) (_hr1 : r < 100) :
    (EnhancedRandom.probabilityCheck p r = true ↔ r ≤ p) ∧
    (RandomUtil.probabilityCheck p r = true ↔ r ≤ p) ∧
    ∀ rec, ((s.recordRandom p name r).random).getLast? = some rec →
      (rec.result = true ↔ r ≤ p) := by
  refine ⟨by simp [EnhancedRandom.probabilityCheck],
          by simp [RandomUtil.probabilityCheck], ?_⟩
  intro rec hrec
  simp only [Session.recordRandom, List.getLast?_concat, Option.some_inj] at hrec
  subst hrec
  simp

/-- Witness for C1's amended theorem at `p = 30`, `r = 30` (boundary hit). -/
theorem c1_probability_check_le_witness :
    EnhancedRandom.probabilityCheck 30 30 = true :=
  (c1_probability_check_le 30 30 exampleSession "home" (by norm_num)
    (by norm_num) (by norm_num) (by norm_num)).1.mpr (by norm_num)

/-! ## Claim C2 — single reason, fixed priority order -/

/-- C2: `checkLimits` reports at most one reason (its result is exactly one of
the four listed values), and under simultaneous violation the priority order
duration > videoCount > idle holds: whenever the duration condition holds the
reason is `"duration"` regardless of the other two; `"videoCount"` is reported
exactly when duration is within bounds and the video condition holds;
`"idle"` only when both earlier conditions are within bounds. -/
theorem c2_checkLimits_single_reason_priority (s : Session) (now : ℚ) :
    (((s.checkLimits now).reason).isSome → (s.checkLimits now).exceedsLimit = true) ∧
    (s.getSessionDuration now ≥ s.sessionDuration →
      s.checkLimits now = ⟨true, some "duration"⟩) ∧
    (¬ s.getSessionDuration now ≥ s.sessionDuration →
      s.videosWatched ≥ s.maxVideos →
      s.checkLimits now = ⟨true, some "videoCount"⟩) ∧
    (¬ s.getSessionDuration now ≥ s.sessionDuration →
      ¬ s.videosWatched ≥ s.maxVideos →
      s.getIdleTime now ≥ s.idleTimeout →
      s.checkLimits now = ⟨true, some "idle"⟩) ∧
    (¬ s.getSessionDuration now ≥ s.sessionDuration →
      ¬ s.videosWatched ≥ s.maxVideos →
      ¬ s.getIdleTime now ≥ s.idleTimeout →
      s.checkLimits now = ⟨false, none⟩) := by
  refine ⟨checkLimits_reason_isSome, ?_, ?_, ?_, ?_⟩
  all_goals
    intros
    rw [checkLimits_eq]
    split_ifs
    all_goals simp_all

/-- Witness for C2 at the spec's simultaneous-violation example
(`elapsed = 100, limit = 90`, `videos = 20, limit = 15`,
`idle = 30, limit = 10`): the reported reason is `"duration"`. -/
theorem c2_checkLimits_single_reason_priority_witness :
    tripleViolationSession.checkLimits 100 = ⟨true, some "duration"⟩ :=
  (c2_checkLimits_single_reason_priority tripleViolationSession 100).2.1 (by
    simp [tripleViolationSession, Session.getSessionDuration]
    norm_num)

/-! ## Claim C9 — inclusive limit comparisons -/

/-- C9: all three comparisons are inclusive (`>=` in the source): elapsed
duration exactly equal to the configured limit already reports `"duration"`;
a video count exactly equal to `maxVideos` (with duration within bounds)
already reports `"videoCount"`; idle time exactly equal to the idle timeout
(with the earlier two within bounds) already reports `"idle"`. -/
theorem c9_checkLimits_inclusive (s : Session) (now : ℚ) :
    (s.getSessionDuration now = s.sessionDuration →
      s.checkLimits now = ⟨true, some "duration"⟩) ∧
    (s.getSessionDuration now < s.sessionDuration →
      s.videosWatched = s.maxVideos →
      s.checkLimits now = ⟨true, some "videoCount"⟩) ∧
    (s.getSessionDuration now < s.sessionDuration →
      s.videosWatched < s.maxVideos →
      s.getIdleTime now = s.idleTimeout →
      s.checkLimits now = ⟨true, some "idle"⟩) := by
  refine ⟨fun h => checkLimits_duration (ge_of_eq h), ?_, ?_⟩
  · intro h1 h2
    exact checkLimits_videoCount (not_le.mpr h1) (ge_of_eq h2)
  · intro h1 h2 h3
    exact checkLimits_idle (not_le.mpr h1) (not_le.mpr h2) (ge_of_eq h3)

/-- Witness for C9: a session whose elapsed duration equals its limit exactly
(`10` minutes elapsed, limit `10`) reports `"duration"`. -/
theorem c9_checkLimits_inclusive_witness :
    exampleSession.checkLimits 10 = ⟨true, some "duration"⟩ :=
  (c9_checkLimits_inclusive exampleSession 10).1 (by
    simp [exampleSession, Session.getSessionDuration])

/-! ## Claim C7 — `checkLimits` never mutates the session -/

/-- C7, counterexample: the claim also asserts that two successive calls with
no intervening activity return identical results.  Because the verdict
depends on the wall clock, a session five minutes into a ten-minute limit
gets `ok` from a first call (at `now = 5`) and `duration`-exceeded from an
immediately following second call made five minutes later (at `now = 10`),
with no activity in between. -/
theorem c7_idempotence_counterexample :
    ((exampleSession.checkLimitsM 5).2.checkLimitsM 10).1 ≠
      (exampleSession.checkLimitsM 5).1 := by
  show exampleSession.checkLimits 10 ≠ exampleSession.checkLimits 5
  rw [checkLimits_eq, checkLimits_eq]
  norm_num [exampleSession, Session.getSessionDuration, Session.getIdleTime]

/-- C7, amended: `checkLimits` never mutates the session — the session state
after the call is exactly the state before it (the method body contains no
field writes, which the state-passing embedding `checkLimitsM` makes
explicit) — and a second call evaluated at the same instant on the session
returned by the first call yields the identical verdict; the verdict is a
pure function of the session state and the time of the call, so results can
differ only when wall-clock time passes between the calls. -/
theorem c7_checkLimits_pure (s : Session) (now : ℚ) :
    (s.checkLimitsM now).2 = s ∧
    ((s.checkLimitsM now).2.checkLimitsM now).1 = (s.checkLimitsM now).1 :=
  ⟨rfl, rfl⟩

end Youtube

namespace Youtube

/-! ## Helper lemmas on `JSNum` and the weighted choice -/

/-- Adding `NaN` yields `NaN`. -/
theorem JSNum.add_nan (x : JSNum) : x.add JSNum.nan = JSNum.nan := by
  cases x <;> rfl

/-- Nothing compares `<=` against `NaN`. -/
theorem JSNum.le_nan (x : JSNum) : x.le JSNum.nan = false := by
  cases x <;> rfl

/-- `totalWeight` is the sum of the weights. -/
theorem totalWeight_eq_sum (l : List (String × ℚ)) :
    totalWeight l = (l.map Prod.snd).sum := by
  have aux : ∀ (l : List (String × ℚ)) (c : ℚ),
      List.foldl (fun sum o => sum + o.2) c l = c + (l.map Prod.snd).sum := by
    intro l
    induction l with
    | nil => simp
    | cons a t ih => intro c; simp [ih, add_assoc]
  simpa using aux l 0

/-- With a nonzero total, the JavaScript normalisation stays finite:
each weight becomes exactly `(w / total) * 100`. -/
theorem normalizeWeights_of_total_ne_zero {opts : List (String × ℚ)}
    (ht : totalWeight opts ≠ 0) :
    normalizeWeights opts =
      opts.map fun o => (o.1, JSNum.num (o.2 / totalWeight opts * 100)) := by
  unfold normalizeWeights
  simp [JSNum.div, JSNum.mul, ht]

/-- Folding JavaScript addition over finite normalised weights is exact
rational summation. -/
theorem foldl_add_normalized (l : List (String × ℚ)) (t : ℚ) :
    ∀ c : ℚ,
      ((l.map fun o => (o.1, JSNum.num (o.2 / t * 100))).foldl
        (fun sum o => sum.add o.2) (JSNum.num c)) =
      JSNum.num (c + (l.map Prod.snd).sum / t * 100) := by
  induction l with
  | nil => intro c; simp
  | cons a tl ih =>
    intro c
    rw [List.map_cons, List.foldl_cons,
      show (JSNum.num c).add (JSNum.num (a.2 / t * 100)) =
        JSNum.num (c + a.2 / t * 100) from rfl,
      ih, List.map_cons, List.sum_cons]
    congr 1
    ring

/-! ## Claim C4 — the exact cumulative-boundary tie -/

/-- C4, counterexample: over options `[{A,50},{B,50}]` a rolled value of
exactly `50.0` selects `A`, not `B` as the claim states: the source loop
compares `randomValue <= cumulative` and A's cumulative sum `50` already
satisfies `50 <= 50`. -/
theorem c4_boundary_counterexample :
    selectWeighted [("A", 50), ("B", 50)] "A" 50 = "A" ∧
      ("A" : String) ≠ "B" := by
  constructor
  · norm_num [selectWeighted, normalizeWeights, totalWeight, walkCumulative,
      JSNum.add, JSNum.div, JSNum.mul, JSNum.le]
  · decide

/-- C4, amended: at an exact cumulative-boundary tie the *earlier* option
wins: over `[{A,50},{B,50}]` a rolled value of exactly `50.0` selects `A`,
whatever the pre-initialised selection was. -/
theorem c4_boundary_first_option_wins (initial : String) :
    selectWeighted [("A", 50), ("B", 50)] initial 50 = "A" := by
  norm_num [selectWeighted, normalizeWeights, totalWeight, walkCumulative,
    JSNum.add, JSNum.div, JSNum.mul, JSNum.le]

/-! ## Claim C3 — zero-total-weight fallback -/

/-- C3, counterexample: with an all-zero weight table the in-video behaviour
choice of `viewVideoContent` does not select the first option of the
caller-supplied list (`"interestingSection"`); it returns
`"continueWatching"`, the value the source pre-assigns to
`selectedBehavior`, which is the *last* option of that list. -/
theorem c3_zero_weight_counterexample :
    viewVideoBehaviorChoice zeroWatchConfig 0 = "continueWatching" ∧
      ("continueWatching" : String) ≠ "interestingSection" := by
  constructor
  · norm_num [viewVideoBehaviorChoice, zeroWatchConfig, selectWeighted,
      normalizeWeights, totalWeight, walkCumulative,
      JSNum.add, JSNum.div, JSNum.mul, JSNum.le]
  · decide

/-- C3, amended: a zero-total weighted choice does not throw (every
normalised weight is `NaN`, every `<=` test is false, the loop falls
through), and it deterministically returns the site's pre-initialised
selection — which is the first option (`"watchSuggested"`) in
`decideNextAction` but the last option (`"continueWatching"`) in the
in-video behaviour choice of `viewVideoContent`; the fallback is not the
first option at every site. -/
theorem c3_zero_weight_fallback (cfg : WatchVideoConfig)
    (ncfg : NavigationConfig) (r : ℚ)
    (h1 : cfg.interestingSection = 0) (h2 : cfg.boringSection = 0)
    (h3 : cfg.tabInactive = 0) (h4 : cfg.continueWatching = 0)
    (g1 : ncfg.watchSuggested = 0) (g2 : ncfg.backToSearchResults = 0)
    (g3 : ncfg.newSearch = 0) (g4 : ncfg.viewCurrentChannel = 0)
    (g5 : ncfg.endSessionEarly = 0) :
    viewVideoBehaviorChoice cfg r = "continueWatching" ∧
      decideNextActionChoice ncfg r = "watchSuggested" := by
  constructor
  · norm_num [viewVideoBehaviorChoice, selectWeighted, normalizeWeights,
      totalWeight, walkCumulative, h1, h2, h3, h4,
      JSNum.add, JSNum.div, JSNum.mul, JSNum.le]
  · norm_num [decideNextActionChoice, selectWeighted, normalizeWeights,
      totalWeight, walkCumulative, g1, g2, g3, g4, g5,
      JSNum.add, JSNum.div, JSNum.mul, JSNum.le]

/-- Witness for C3's amended theorem on concrete all-zero tables. -/
theorem c3_zero_weight_fallback_witness :
    viewVideoBehaviorChoice zeroWatchConfig 7 = "continueWatching" ∧
      decideNextActionChoice zeroNavigationConfig 7 = "watchSuggested" :=
  c3_zero_weight_fallback zeroWatchConfig zeroNavigationConfig 7
    rfl rfl rfl rfl rfl rfl rfl rfl rfl

/-! ## Claim C5 — normalised weights sum to 100 -/

/-- C5, counterexample: the claim quantifies over *every* list with all
weights positive, and the empty list satisfies that hypothesis vacuously,
yet its normalised weights sum to `0`, not `100`. -/
theorem c5_empty_table_counterexample :
    (∀ w ∈ ([] : List (String × ℚ)), 0 < w.2) ∧
      sumNormalized ([] : List (String × ℚ)) = JSNum.num 0 ∧
      JSNum.num 0 ≠ JSNum.num 100 := by
  refine ⟨by simp, rfl, by norm_num⟩

/-- C5, amended: for every *nonempty* list of (name, weight) pairs with all
weights positive, the normalised weights (each weight divided by the total
and multiplied by 100, in exact rational arithmetic) sum to exactly 100. -/
theorem c5_normalized_sum_100 (opts : List (String × ℚ))
    (hne : opts ≠ []) (hpos : ∀ w ∈ opts, 0 < w.2) :
    sumNormalized opts = JSNum.num 100 := by
  have hsum : 0 < (opts.map Prod.snd).sum := by
    apply List.sum_pos
    · intro q hq
      obtain ⟨w, hw, rfl⟩ := List.mem_map.mp hq
      exact hpos w hw
    · simpa using hne
  have ht : totalWeight opts ≠ 0 := by
    rw [totalWeight_eq_sum]
    exact ne_of_gt hsum
  unfold sumNormalized
  rw [normalizeWeights_of_total_ne_zero ht, foldl_add_normalized]
  rw [totalWeight_eq_sum]
  congr 1
  field_simp

/-- Witness for C5's amended theorem on a concrete two-entry table. -/
theorem c5_normalized_sum_100_witness :
    sumNormalized [("A", 30), ("B", 20)] = JSNum.num 100 :=
  c5_normalized_sum_100 [("A", 30), ("B", 20)] (by simp) (by norm_num)

/-! ## Helper lemmas on the watching loop -/

/-- The watching loop never touches `videosWatched`: the only session writes
it performs are `updateActivity` calls. -/
theorem viewLoop_videosWatched (cfg : WatchVideoConfig) (vd wd : ℚ) :
    ∀ (os : List LoopOracle) (st : LoopSt),
      ((viewLoop cfg vd wd os st).2.1).sess.videosWatched =
        st.sess.videosWatched := by
  intro os
  induction os with
  | nil =>
    intro st
    rw [viewLoop.eq_def]
    dsimp only
    split_ifs <;> rfl
  | cons o rest ih =>
    intro st
    rw [viewLoop.eq_def]
    dsimp only
    split_ifs <;> simp_all [Session.updateActivity]

/-- Mapping loop events into the `watchVideo` trace contributes no
increments. -/
theorem countP_increment_map_loopEv (l : List LEvent) :
    List.countP (fun e => decide (e = WEvent.increment)) (l.map WEvent.loopEv) = 0 := by
  induction l with
  | nil => rfl
  | cons e t ih => simp [List.countP_cons, ih]

/-- The session carried by `wrapLoopRes` is the loop's final session. -/
theorem wrapLoopRes_sess (res : LoopRes) (s : Session) (base : List WEvent) :
    (wrapLoopRes res s base).sess = s := by
  cases res <;> rfl

/-- The trace carried by `wrapLoopRes` is the assembled trace. -/
theorem wrapLoopRes_trace (res : LoopRes) (s : Session) (base : List WEvent) :
    (wrapLoopRes res s base).trace = base := by
  cases res <;> rfl

/-! ## Claim C10 — `videosWatched` counts started videos -/

/-- C10: every `watchVideo` call that gets past page acquisition (reaches the
main body) increments `videosWatched` exactly once — at entry, before any ad
handling, volume adjustment or watching — and the increment persists in the
session whatever the outcome (error, endSession, completed, partial): the
final session always carries `videosWatched + 1`. -/
theorem c10_watchVideo_increments_once (s : Session) (now : ℚ)
    (cfg : WatchVideoConfig) (videoDur : ℚ) (o : WatchOracle)
    (hpage : o.pageThrows = false) :
    (watchVideo s now cfg videoDur o).sess.videosWatched = s.videosWatched + 1 ∧
    countIncrements (watchVideo s now cfg videoDur o).trace = 1 ∧
    incrementFirst (watchVideo s now cfg videoDur o).trace = true := by
  unfold watchVideo
  rw [hpage, if_neg (by decide)]
  by_cases hads : o.adsThrows = true
  · rw [if_pos hads]
    exact ⟨rfl, rfl, rfl⟩
  · rw [if_neg hads]
    dsimp only
    by_cases hgv : RandomUtil.probabilityCheck cfg.adjustVolume o.adjustRoll = true
        ∧ o.volThrows = true
    · rw [if_pos hgv]
      exact ⟨rfl, rfl, rfl⟩
    · rw [if_neg hgv]
      refine ⟨?_, ?_, ?_⟩
      · simp only [wrapLoopRes_sess, viewVideoContent, viewLoop_videosWatched,
          Session.updateActivity, Session.incrementVideosWatched]
      · simp only [wrapLoopRes_trace]
        by_cases hg : RandomUtil.probabilityCheck cfg.adjustVolume o.adjustRoll = true <;>
          simp [hg, countIncrements, List.countP_cons, List.countP_append,
            countP_increment_map_loopEv]
      · simp only [wrapLoopRes_trace]
        by_cases hg : RandomUtil.probabilityCheck cfg.adjustVolume o.adjustRoll = true <;>
          simp [hg, incrementFirst]

/-- Witness for C10: a concrete quiet call (page never throws) on the fresh
example session ends with `videosWatched = 1`. -/
theorem c10_watchVideo_increments_once_witness :
    (watchVideo exampleSession 0 sampleWatchConfig 300 quietOracle).sess.videosWatched =
      exampleSession.videosWatched + 1 :=
  (c10_watchVideo_increments_once exampleSession 0 sampleWatchConfig 300 quietOracle rfl).1

/-! ## Claim C6 — Action Provider errors are caught and recovered to Home -/

/-- An oracle whose ad handling throws. -/
def adsThrowOracle : WatchOracle :=
  ⟨false, true, 0, 99, false, 0, 50, []⟩

/-- C6: whichever Action Provider step throws inside `watchVideo` — page
acquisition, ad handling, volume adjustment, or any page interaction inside
the watching loop — the controller catches it and returns
`{action: "error"}` instead of propagating; and the orchestrator's
`handleNextAction` treats `"error"` as non-fatal, dispatching the Home phase
(not ending the session flow) whenever the limiter has not fired. -/
theorem c6_error_caught_and_routed_home (s : Session) (now : ℚ)
    (cfg : WatchVideoConfig) (videoDur : ℚ) (o : WatchOracle)
    (rollEndHome rollFinish : ℚ) :
    (o.pageThrows = true →
      (watchVideo s now cfg videoDur o).result = WatchResult.error) ∧
    (o.pageThrows = false → o.adsThrows = true →
      (watchVideo s now cfg videoDur o).result = WatchResult.error) ∧
    (o.pageThrows = false → o.adsThrows = false →
      RandomUtil.probabilityCheck cfg.adjustVolume o.adjustRoll = true →
      o.volThrows = true →
      (watchVideo s now cfg videoDur o).result = WatchResult.error) ∧
    (o.pageThrows = false → o.adsThrows = false →
      ¬ (RandomUtil.probabilityCheck cfg.adjustVolume o.adjustRoll = true
          ∧ o.volThrows = true) →
      (viewVideoContent cfg ((s.updateActivity now).incrementVideosWatched)
          (if RandomUtil.probabilityCheck cfg.adjustVolume o.adjustRoll = true
            then now + o.adsDelay + o.volDelay else now + o.adsDelay)
          videoDur o.watchPctRand o.loopOracles).2.2 = LoopRes.thrown →
      (watchVideo s now cfg videoDur o).result = WatchResult.error) ∧
    handleNextActionRoutes "error" false rollEndHome rollFinish = [Route.home] := by
  refine ⟨?_, ?_, ?_, ?_, rfl⟩
  · intro hp
    unfold watchVideo
    rw [hp, if_pos rfl]
  · intro hp hads
    unfold watchVideo
    rw [hp, if_neg (by decide), hads]
    dsimp only
    rw [if_pos rfl]
  · intro hp hads hgate hvol
    unfold watchVideo
    rw [hp, if_neg (by decide), if_neg (by simp [hads])]
    dsimp only
    rw [if_pos ⟨hgate, hvol⟩]
  · intro hp hads hgv hthrown
    unfold watchVideo
    rw [hp, if_neg (by decide), if_neg (by simp [hads])]
    dsimp only
    rw [if_neg hgv, hthrown]
    rfl

/-! ## Helper lemmas for the mid-watch limit enforcement (claim C8) -/

/-- A singleton check event is always well guarded. -/
theorem wellGuarded_singleton_check (a : Bool) (r : Option String) :
    wellGuarded a [LEvent.check r] = true := by
  cases r <;> rfl

/-- A singleton check event starts nothing. -/
theorem noStartAfterExceeded_singleton_check (r : Option String) :
    noStartAfterExceeded [LEvent.check r] = true := by
  cases r <;> rfl

/-- If the session limits are already exceeded when the loop is (re-)entered,
the produced trace starts no segment and no effect whatsoever. -/
theorem viewLoop_all_noStart (cfg : WatchVideoConfig) (vd wd : ℚ)
    (os : List LoopOracle) (st : LoopSt)
    (h : (st.sess.checkLimits st.now).exceedsLimit = true) :
    (viewLoop cfg vd wd os st).1.all (fun e => !e.isStart) = true := by
  rw [viewLoop.eq_def]
  dsimp only
  split_ifs with hw
  · cases os with
    | nil => rfl
    | cons o rest => simp [LEvent.isStart]
  · rfl
  · rfl

/-- Every trace the watching loop can produce obeys the guard discipline:
each watching segment is immediately preceded (up to behaviour effects) by a
`checkLimits` call that returned ok, whatever the initial armed flag. -/
theorem viewLoop_wellGuarded (cfg : WatchVideoConfig) (vd wd : ℚ) :
    ∀ (os : List LoopOracle) (st : LoopSt) (a : Bool),
      wellGuarded a (viewLoop cfg vd wd os st).1 = true := by
  intro os
  induction os with
  | nil =>
    intro st a
    rw [viewLoop.eq_def]
    dsimp only
    split_ifs <;> rfl
  | cons o rest ih =>
    intro st a
    rw [viewLoop.eq_def]
    dsimp only
    by_cases hw : st.watchedTime < wd
    · rw [if_pos hw]
      by_cases hv : (st.sess.checkLimits st.now).exceedsLimit = true
      · rw [if_pos hv]
        exact wellGuarded_singleton_check a _
      · rw [if_neg hv]
        split_ifs <;>
          simp [wellGuarded, ih, List.cons_append, List.nil_append]
    · rw [if_neg hw]
      rfl

/-- Once any `checkLimits` consultation inside the watching loop reports a
limit exceeded, no further watching segment and no further behaviour effect
is started: the top-of-loop check returns immediately, and an inner
(tab-inactive) check that reports a non-idle reason is followed only by the
next top-of-loop check, which still reports exceeded and returns. -/
theorem viewLoop_noStartAfterExceeded (cfg : WatchVideoConfig) (vd wd : ℚ) :
    ∀ (os : List LoopOracle) (st : LoopSt),
      noStartAfterExceeded (viewLoop cfg vd wd os st).1 = true := by
  intro os
  induction os with
  | nil =>
    intro st
    rw [viewLoop.eq_def]
    dsimp only
    split_ifs <;> rfl
  | cons o rest ih =>
    intro st
    rw [viewLoop.eq_def]
    dsimp only
    by_cases hw : st.watchedTime < wd
    · rw [if_pos hw]
      by_cases hv : (st.sess.checkLimits st.now).exceedsLimit = true
      · rw [if_pos hv]
        exact noStartAfterExceeded_singleton_check _
      · rw [if_neg hv]
        split_ifs with h1 h2 h3 h4 h5 h6 h7 <;>
          simp_all [noStartAfterExceeded, ih, List.cons_append, List.nil_append,
            LEvent.isStart]
        rcases hr : ((st.sess.updateActivity st.now).checkLimits
            (st.now + o.segDelay + o.branchDelay)).reason with _ | r
        · exact Or.inl rfl
        · refine Or.inr ?_
          have hex : ((st.sess.updateActivity st.now).checkLimits
              (st.now + o.segDelay + o.branchDelay)).exceedsLimit = true :=
            checkLimits_reason_isSome (by rw [hr]; rfl)
          have hnid : ((st.sess.updateActivity st.now).checkLimits
              (st.now + o.segDelay + o.branchDelay)).reason ≠ some "idle" := by
            intro hid
            simp_all
          have hall := viewLoop_all_noStart cfg vd wd rest
            ⟨st.now + o.segDelay + o.branchDelay,
              (st.sess.updateActivity st.now).updateActivity
                (st.now + o.segDelay + o.branchDelay),
              st.watchedTime + min (o.segRand : ℚ) (wd - st.watchedTime)⟩
            (checkLimits_exceed_after_updateActivity hex hnid)
          intro x hx
          have hx2 := List.all_eq_true.mp hall x hx
          simpa [LEvent.isStart] using hx2
    · rw [if_neg hw]
      rfl

/-- If the top-of-loop `checkLimits` reports exceeded on loop entry, the loop
returns `{action: "endSession", data: {reason}}` at once: the trace is the
single check event and the state is untouched. -/
theorem viewLoop_entry_exceeded (cfg : WatchVideoConfig) (vd wd : ℚ)
    (o : LoopOracle) (rest : List LoopOracle) (st : LoopSt)
    (hw : st.watchedTime < wd)
    (hv : (st.sess.checkLimits st.now).exceedsLimit = true) :
    viewLoop cfg vd wd (o :: rest) st =
      ([LEvent.check (st.sess.checkLimits st.now).reason], st,
        LoopRes.endSession (st.sess.checkLimits st.now).reason) := by
  rw [viewLoop.eq_def]
  dsimp only
  rw [if_pos hw, if_pos hv]

/-! ## Claim C8 — limits are checked before every watching segment -/

/-- C8: in `viewVideoContent`'s watching loop, (1) every watching segment is
guarded by an immediately preceding `checkLimits` call that returned ok —
whatever the initial armed state; (2) once any check reports exceeded, no
further watching segment and no further page-touching behaviour effect is
started; (3) if a limit is already exceeded when the loop is entered, the
controller immediately returns `{action: "endSession"}` carrying the
limiter's reason, with the single check as the whole trace. -/
theorem c8_limits_guard_watching (cfg : WatchVideoConfig) (s : Session)
    (now : ℚ) (videoDur : ℚ) (watchPctRand : ℕ) (os : List LoopOracle) :
    (∀ a, wellGuarded a
      (viewVideoContent cfg s now videoDur watchPctRand os).1 = true) ∧
    noStartAfterExceeded
      (viewVideoContent cfg s now videoDur watchPctRand os).1 = true ∧
    (∀ (o : LoopOracle) (rest : List LoopOracle), os = o :: rest →
      0 < ((((videoDur * (watchPctRand : ℚ)) / 100).floor : ℤ) : ℚ) →
      (s.checkLimits now).exceedsLimit = true →
      viewVideoContent cfg s now videoDur watchPctRand os =
        ([LEvent.check (s.checkLimits now).reason], ⟨now, s, 0⟩,
          LoopRes.endSession (s.checkLimits now).reason)) := by
  refine ⟨fun a => viewLoop_wellGuarded cfg videoDur _ os ⟨now, s, 0⟩ a,
          viewLoop_noStartAfterExceeded cfg videoDur _ os ⟨now, s, 0⟩, ?_⟩
  intro o rest hos hd hv
  subst hos
  exact viewLoop_entry_exceeded cfg videoDur _ o rest ⟨now, s, 0⟩ hd hv

/-- Witness for C8's entry clause: on a session whose duration limit is `0`
the first check fires and `viewVideoContent` returns `endSession` with reason
`"duration"` before any watching segment. -/
theorem c8_limits_guard_watching_witness :
    viewVideoContent sampleWatchConfig expiredSession 0 300 50
        [⟨20, 1, 99, false, 0⟩] =
      ([LEvent.check (some "duration")], ⟨0, expiredSession, 0⟩,
        LoopRes.endSession (some "duration")) := by
  have hdur : expiredSession.getSessionDuration 0 ≥ expiredSession.sessionDuration := by
    norm_num [expiredSession, Session.getSessionDuration]
  have hcl : expiredSession.checkLimits 0 = ⟨true, some "duration"⟩ :=
    checkLimits_duration hdur
  have h := (c8_limits_guard_watching sampleWatchConfig expiredSession 0 300 50
      [⟨20, 1, 99, false, 0⟩]).2.2 ⟨20, 1, 99, false, 0⟩ [] rfl
    (by
      norm_num
      rw [Int.lt_iff_add_one_le, show (0 : ℤ) + 1 = 1 from rfl, Rat.le_floor]
      norm_num)
    (by rw [hcl])
  rw [hcl] at h
  exact h

/-- Witness for C6: the concrete ad-throwing call returns `"error"` and the
orchestrator dispatches Home on it. -/
theorem c6_error_caught_and_routed_home_witness :
    (watchVideo exampleSession 0 sampleWatchConfig 300 adsThrowOracle).result =
      WatchResult.error ∧
    handleNextActionRoutes "error" false 10 10 = [Route.home] :=
  ⟨(c6_error_caught_and_routed_home exampleSession 0 sampleWatchConfig 300
      adsThrowOracle 10 10).2.1 rfl rfl,
    (c6_error_caught_and_routed_home exampleSession 0 sampleWatchConfig 300
      adsThrowOracle 10 10).2.2.2.2⟩

end Youtube
